import Mathlib

/-!
Verification development for `pi-sensor-reader` (`src/main.rs`).

The Rust program is embedded shallowly:

* the DS18B20 driver's `read_to_string` becomes a pure function from the
  (optional) decoded contents of the `w1_slave` status file to the JSON
  string it returns; the `f32::NAN` sentinel reading serializes to
  `\x7b"temperature":null\x7d` exactly as `serde_json` renders a non-finite float;
* the finite reading `(itemp as f32) / 1000.0` is modelled by the exact value
  `itemp / 1000`, rendered in the shortest-decimal style `serde_json` uses
  (exact whenever the `f32` computation is, in particular for the
  multiples of 1000 exercised in this development);
* `get_sensors` becomes a function over an `Except`-valued directory listing;
* the polling loop body of `main` becomes a function producing the ordered
  trace of observable events of one cycle (delay, sensor reads, reconnect,
  publish), with the broker boundary abstracted to one record of per-cycle
  answers (`is_connected`, reconnect result, publish result);
* the `parse` helper of the configuration loader becomes a function whose
  result distinguishes a returned value from a Rust panic.
-/

namespace PiSensor

/-- Splits a character list at every occurrence of `sep`; the separators are
dropped and the (possibly empty) groups between them are kept, so the result
always has one more group than there are separators. This is the common core
of Rust's `str::lines`, `str::split` and `str::rsplit` as used by the driver. -/
def splitOnChar (sep : Char) : List Char → List (List Char)
  | [] => [[]]
  | c :: rest =>
    match splitOnChar sep rest with
    | [] => [[c]]
    | g :: gs => if c = sep then [] :: g :: gs else (c :: g) :: gs

/-- Strips one trailing carriage return from a line, as Rust `str::lines`
does for lines terminated by `\r\n`. -/
def stripCr (l : List Char) : List Char :=
  if l.getLastD 'x' = '\r' then l.dropLast else l

/-- Model of Rust `str::lines`: split on `'\n'`, drop the final empty piece
produced by a trailing newline (so the empty string has no lines), and strip
a `'\r'` from every piece that was terminated by a `'\n'`. The final piece of
a string without a trailing newline is kept verbatim. -/
def rustLines (s : String) : List (List Char) :=
  let parts := splitOnChar '\n' s.data
  if parts.getLastD [] = [] then parts.dropLast.map stripCr
  else parts.dropLast.map stripCr ++ [parts.getLastD []]

/-- The text after the last `'='` of a line (the whole line when it has no
`'='`): Rust `line.rsplit('=').next()`, which is always `Some`. -/
def afterLastEq (l : List Char) : List Char :=
  (splitOnChar '=' l).getLastD []

/-- Accumulates the value of a run of ASCII decimal digits; any other
character aborts with `none` (Rust's `InvalidDigit`). -/
def digitsValAux (acc : Nat) : List Char → Option Nat
  | [] => some acc
  | c :: rest =>
    if c.isDigit then digitsValAux (10 * acc + (c.toNat - 48)) rest else none

/-- Model of Rust `i32::from_str`: an optional `'+'` or `'-'` sign followed by
at least one ASCII digit, with the value required to fit in the `i32` range
`[-2^31, 2^31 - 1]`; anything else (empty input, a bare sign, a stray
character, overflow) is an error. -/
def parseI32 (l : List Char) : Option Int :=
  let withSign : Bool → List Char → Option Int := fun neg ds =>
    match ds with
    | [] => none
    | _ =>
      match digitsValAux 0 ds with
      | none => none
      | some n =>
        let v : Int := if neg then -(n : Int) else (n : Int)
        if -(2 ^ 31) ≤ v ∧ v ≤ 2 ^ 31 - 1 then some v else none
  match l with
  | '-' :: rest => withSign true rest
  | '+' :: rest => withSign false rest
  | _ => withSign false l

/-- A DS18B20 reading: either the `f32::NAN` sentinel produced by every
failure branch of the driver, or a finite reading carrying the parsed
millidegree integer (the temperature is that integer divided by 1000). -/
inductive Reading where
  | sentinel : Reading
  | value (millidegrees : Int) : Reading
deriving DecidableEq

/-- The parsing pipeline of `DS18B20Sensor::read_to_string` applied to the
decoded file contents, in the source's order: an empty string, fewer than two
lines, a first line that does not end with the `"YES"` CRC marker, or a second
line whose text after the last `'='` does not parse as an `i32`, each yield
the sentinel; otherwise the parsed millidegree value is the reading. -/
def parseContent (contents : String) : Reading :=
  if contents = "" then Reading.sentinel
  else
    match rustLines contents with
    | line1 :: line2 :: _ =>
      if ['Y', 'E', 'S'].isSuffixOf line1 then
        match parseI32 (afterLastEq line2) with
        | some v => Reading.value v
        | none => Reading.sentinel
      else Reading.sentinel
    | _ => Reading.sentinel

/-- The reading produced by `DS18B20Sensor::read_to_string` from the raw file
access: `none` models `fs::read` failing (device removed, permission, I/O
error) and yields the sentinel; `some contents` models a successful read, with
a UTF-8 decoding failure already collapsed to `""` by
`String::from_utf8(..).unwrap_or("".into())`. -/
def readReading (raw : Option String) : Reading :=
  match raw with
  | none => Reading.sentinel
  | some contents => parseContent contents

/-- The ASCII digit character for `d < 10`. -/
def digitChar (d : Nat) : Char := Char.ofNat (48 + d)

/-- Tail of the decimal rendering: peels digits off `n` least significant
first into `acc`; the fuel only bounds the recursion depth and `n + 1` fuel
is always enough since a number has at most `n + 1` decimal digits. -/
def natDigitsAux : Nat → Nat → List Char → List Char
  | 0, _, acc => acc
  | fuel + 1, n, acc =>
    if n < 10 then digitChar n :: acc
    else natDigitsAux fuel (n / 10) (digitChar (n % 10) :: acc)

/-- The decimal digits of a natural number, most significant first; `0`
renders as `"0"`. -/
def natDigits (n : Nat) : List Char := natDigitsAux (n + 1) n []

/-- Drops trailing `'0'` characters but keeps at least one digit, matching the
shortest-decimal fraction rendering of `serde_json` (`23.500` prints as
`23.5`, an integral value keeps one `0` after the point). -/
def trimZeros (l : List Char) : List Char :=
  let r := (l.reverse.dropWhile (fun c => c = '0')).reverse
  if r.isEmpty then ['0'] else r

/-- Character-list rendering of the finite temperature `m / 1000` in the style
`serde_json` prints an `f32`: optional minus sign, integer part, `'.'`, and
the millidegree fraction with trailing zeros trimmed (at least one digit). -/
def renderTempL (m : Int) : List Char :=
  (if m < 0 then ['-'] else []) ++
    natDigits (m.natAbs / 1000) ++
      '.' :: trimZeros [digitChar (m.natAbs % 1000 / 100),
        digitChar (m.natAbs % 1000 / 10 % 10), digitChar (m.natAbs % 1000 % 10)]

/-- String form of `renderTempL`. -/
def renderTemp (m : Int) : String := String.mk (renderTempL m)

/-- Serialization of a `DS18B20Reading` by `serde_json::to_string`: the
struct has the single field `temperature`, the `NAN` sentinel prints as
`null`, a finite value prints as a JSON number. This serialization is total:
the `.unwrap()` after every `serde_json::to_string` in the driver cannot
panic. -/
def renderReading : Reading → String
  | Reading.sentinel => "\x7b\"temperature\":null\x7d"
  | Reading.value m => "\x7b\"temperature\":" ++ renderTemp m ++ "\x7d"

/-- `DS18B20Sensor::read_to_string`: every branch serializes a reading, the
failure branches the sentinel and the success branch the parsed value. -/
def read_to_string (raw : Option String) : String :=
  renderReading (readReading raw)

/-- The exact temperature a reading denotes: the parsed integer divided by
1000 (`(itemp as f32) / 1000.0f32` computed without rounding), `none` for the
sentinel. -/
def temperature : Reading → Option ℚ
  | Reading.sentinel => none
  | Reading.value m => some ((m : ℚ) / 1000)

/-- Lowercase hexadecimal digit, used in `\u00..` escapes. -/
def hexDigit (n : Nat) : Char :=
  if n < 10 then digitChar n else Char.ofNat (87 + n)

/-- The escape `serde_json` applies to one character of a JSON string:
`'"'` and `'\\'` are backslash-escaped, the control characters BS, TAB, LF,
FF, CR get their short escapes, other control characters a `\u00..` escape,
and everything else is kept verbatim. -/
def escapeChar (c : Char) : List Char :=
  if c = '"' then ['\\', '"']
  else if c = '\\' then ['\\', '\\']
  else if 32 ≤ c.toNat then [c]
  else if c.toNat = 8 then ['\\', 'b']
  else if c.toNat = 9 then ['\\', 't']
  else if c.toNat = 10 then ['\\', 'n']
  else if c.toNat = 12 then ['\\', 'f']
  else if c.toNat = 13 then ['\\', 'r']
  else ['\\', 'u', '0', '0', hexDigit (c.toNat / 16), hexDigit (c.toNat % 16)]

/-- JSON string-body escaping as `serde_json` performs it. -/
def escapeJson (s : String) : String :=
  String.mk (s.data.map escapeChar).flatten

/-- One `"key":"value"` member of the serialized snapshot map. -/
def serializeEntry (p : String × String) : String :=
  "\"" ++ escapeJson p.1 ++ "\":\"" ++ escapeJson p.2 ++ "\""

/-- Comma-separated concatenation, as `serde_json` joins object members. -/
def joinComma : List String → String
  | [] => ""
  | [s] => s
  | s :: rest => s ++ "," ++ joinComma rest

/-- `serde_json::to_string` of the readings `HashMap`: keys are the sensor
identifiers, values the readings' JSON strings re-escaped as string literals
(the double encoding the consumers rely on). -/
def serializeSnapshot (m : List (String × String)) : String :=
  "\x7b" ++ joinComma (m.map serializeEntry) ++ "\x7d"

/-- `HashMap::insert` on an association list: an existing binding of the key
is replaced in place, otherwise the new binding is appended. -/
def insertHM (m : List (String × String)) (k : String) (v : String) :
    List (String × String) :=
  if m.any (fun p => p.1 = k) then
    m.map (fun p => if p.1 = k then (k, v) else p)
  else m ++ [(k, v)]

/-- The raw status-file contents each sensor identifier reads this cycle
(`none` models an `fs::read` failure for that sensor). -/
def SensorEnv : Type := String → Option String

/-- The snapshot built by one polling cycle: starting from a fresh empty map,
`readings.insert(sensor.identifier(), sensor.read_to_string())` for every
sensor of the registry in order. -/
def buildSnapshot (sensors : List String) (env : SensorEnv) :
    List (String × String) :=
  sensors.foldl (fun acc id => insertHM acc id (read_to_string (env id))) []

/-- The snapshot of cycle `n` of a run: it is computed from the registry and
cycle `n`'s device reads alone, never from an earlier cycle's snapshot. -/
def snapshotAt (sensors : List String) (envs : Nat → SensorEnv) (n : Nat) :
    List (String × String) :=
  buildSnapshot sensors (envs n)

/-- The broker boundary's answers during one cycle: the `is_connected` query,
whether `reconnect()` would succeed, and whether `publish` would succeed. -/
structure BrokerCycle where
  isConnected : Bool
  reconnectOk : Bool
  publishOk : Bool

/-- An observable event of the polling loop: the fixed delay, one sensor
read, a reconnect attempt, or a publish attempt with its payload. -/
inductive Event where
  | sleep (wait : ℚ) : Event
  | readSensor (id : String) : Event
  | reconnect : Event
  | publish (payload : String) : Event
deriving DecidableEq

/-- The ordered event trace of one iteration of `main`'s loop: sleep, read
every sensor into the snapshot, build the message, then — only if
`is_connected` is false — attempt one reconnect, `continue`-ing out of the
cycle when it fails; finally attempt the publish. -/
def cycleEvents (wait : ℚ) (sensors : List String) (env : SensorEnv)
    (b : BrokerCycle) : List Event :=
  let payload := serializeSnapshot (buildSnapshot sensors env)
  let pre := Event.sleep wait :: sensors.map Event.readSensor
  if b.isConnected then pre ++ [Event.publish payload]
  else if b.reconnectOk then pre ++ [Event.reconnect, Event.publish payload]
  else pre ++ [Event.reconnect]

/-- How one loop iteration ends: proceed to the next cycle, or leave the
loop/process. The steady-state loop of `main` has no `break`, no `return`
and no panic, so only `nextCycle` is ever produced. -/
inductive ControlFlow where
  | nextCycle : ControlFlow
  | exitProcess : ControlFlow
deriving DecidableEq

/-- The control flow at the end of one loop iteration, following the source's
branches: a failed reconnect hits `continue`, a failed publish is only logged
(`eprintln!`), and the fall-through reaches the next iteration. -/
def cycleOutcome (b : BrokerCycle) : ControlFlow :=
  if b.isConnected then ControlFlow.nextCycle
  else if b.reconnectOk then ControlFlow.nextCycle
  else ControlFlow.nextCycle

/-- The concatenated event trace of the first `n` cycles of the loop; the
wait time is computed once before the loop and is the same for every cycle. -/
def runCycles (wait : ℚ) (sensors : List String) (envs : Nat → SensorEnv)
    (bs : Nat → BrokerCycle) : Nat → List Event
  | 0 => []
  | n + 1 =>
    runCycles wait sensors envs bs n ++ cycleEvents wait sensors (envs n) (bs n)

/-- The `Ok` payload of a directory entry, `none` for an unreadable entry. -/
def okEntry : Except String String → Option String
  | Except.ok id => some id
  | Except.error _ => none

/-- The body of `get_sensors`' loop for one directory entry: an `Err` entry
is skipped (`if let Ok(dev)`), an entry whose name does not start with the
family prefix `"28-"` is skipped (`continue`), and a matching entry pushes
one sensor with exactly the entry name as identifier. -/
def sensorStep (acc : List String) (dev : Except String String) : List String :=
  match dev with
  | Except.error _ => acc
  | Except.ok id => if id.startsWith "28-" then acc ++ [id] else acc

/-- `get_sensors`: a failure of `fs::read_dir` itself propagates via `?` as a
startup error; on a successful listing the registry is folded up entry by
entry. -/
def get_sensors (listing : Except String (List (Except String String))) :
    Except String (List String) :=
  match listing with
  | Except.error e => Except.error e
  | Except.ok entries => Except.ok (entries.foldl sensorStep [])

/-- The result of the configuration helper `parse`: either a value, or the
Rust `panic!("Error unpacking")` that aborts startup. -/
inductive ParseOutcome (S : Type) where
  | ok (val : S) : ParseOutcome S
  | panicked : ParseOutcome S
deriving DecidableEq

/-- The configuration helper `fn parse<S: FromStr, E>(input, default)`:
`input` is the result of `env::var`, `from_str` the `S::from_str` instance.
When the variable is present but unparsable the default is returned (after
logging); when the variable is absent the function panics. -/
def parse (S : Type) (from_str : String → Option S) (input : Option String)
    (default : S) : ParseOutcome S :=
  match input with
  | some val =>
    match from_str val with
    | some update => ParseOutcome.ok update
    | none => ParseOutcome.ok default
  | none => ParseOutcome.panicked

/-- Strips one leading `'-'` sign, if any. -/
def stripNeg (l : List Char) : List Char :=
  if l.headD 'x' = '-' then l.tail else l

/-- A character list is a JSON number of the shape `serde_json` emits for a
finite float: an optional minus sign, then a nonempty digit run, a `'.'`,
and a nonempty digit run. -/
def isJsonNumberL (l : List Char) : Bool :=
  match splitOnChar '.' (stripNeg l) with
  | [ip, fp] =>
    !ip.isEmpty && ip.all Char.isDigit && !fp.isEmpty && fp.all Char.isDigit
  | _ => false

/-- String form of `isJsonNumberL`. -/
def isJsonNumber (s : String) : Bool := isJsonNumberL s.data

theorem splitOnChar_ne_nil (sep : Char) (l : List Char) :
    splitOnChar sep l ≠ [] := by
  cases l with
  | nil => simp [splitOnChar]
  | cons c rest =>
    unfold splitOnChar
    cases h : splitOnChar sep rest with
    | nil => simp
    | cons g gs => by_cases hc : c = sep <;> simp [hc]

theorem splitOnChar_of_not_mem (sep : Char) (l : List Char) (h : sep ∉ l) :
    splitOnChar sep l = [l] := by
  induction l with
  | nil => rfl
  | cons c rest ih =>
    have hc : c ≠ sep := fun e => h (by simp [e])
    have hrest : sep ∉ rest := fun e => h (List.mem_cons_of_mem _ e)
    unfold splitOnChar
    rw [ih hrest]
    simp [hc]

theorem splitOnChar_append (sep : Char) (ds fs : List Char) (h : sep ∉ ds) :
    splitOnChar sep (ds ++ sep :: fs) = ds :: splitOnChar sep fs := by
  induction ds with
  | nil =>
    simp only [List.nil_append]
    cases hf : splitOnChar sep fs with
    | nil => exact absurd hf (splitOnChar_ne_nil sep fs)
    | cons g gs =>
      simp only [splitOnChar]
      rw [hf]
      simp
  | cons c rest ih =>
    have hc : c ≠ sep := fun e => h (by simp [e])
    have hrest : sep ∉ rest := fun e => h (List.mem_cons_of_mem _ e)
    simp only [List.cons_append, splitOnChar, List.append_eq]
    rw [ih hrest]
    simp [hc]

theorem digitChar_isDigit (d : Nat) (h : d < 10) : (digitChar d).isDigit = true := by
  interval_cases d <;> decide

theorem all_digit_not_mem (l : List Char) (c : Char) (hc : c.isDigit = false)
    (hl : l.all Char.isDigit = true) : c ∉ l := by
  intro hmem
  exact absurd (List.all_eq_true.mp hl c hmem) (by simp [hc])

theorem natDigitsAux_all_digit (fuel n : Nat) (acc : List Char)
    (hacc : acc.all Char.isDigit = true) :
    (natDigitsAux fuel n acc).all Char.isDigit = true := by
  induction fuel generalizing n acc with
  | zero => exact hacc
  | succ fuel ih =>
    unfold natDigitsAux
    by_cases h : n < 10
    · simp [h, digitChar_isDigit n h, hacc]
    · rw [if_neg h]
      exact ih (n / 10) _ (by simp [digitChar_isDigit (n % 10) (Nat.mod_lt _ (by omega)), hacc])

theorem natDigitsAux_ne_nil (fuel n : Nat) (acc : List Char)
    (h : 0 < fuel ∨ acc ≠ []) : natDigitsAux fuel n acc ≠ [] := by
  induction fuel generalizing n acc with
  | zero =>
    rcases h with h | h
    · omega
    · exact h
  | succ fuel ih =>
    unfold natDigitsAux
    by_cases hn : n < 10
    · simp [hn]
    · rw [if_neg hn]
      exact ih (n / 10) _ (Or.inr (by simp))

theorem natDigits_all_digit (n : Nat) : (natDigits n).all Char.isDigit = true :=
  natDigitsAux_all_digit (n + 1) n [] rfl

theorem natDigits_ne_nil (n : Nat) : natDigits n ≠ [] :=
  natDigitsAux_ne_nil (n + 1) n [] (Or.inl (by omega))

theorem trimZeros_ne_nil (l : List Char) : trimZeros l ≠ [] := by
  unfold trimZeros
  by_cases h : ((l.reverse.dropWhile fun c => c = '0').reverse).isEmpty
  · simp [h]
  · rw [if_neg h]
    simpa [List.isEmpty_iff] using h

theorem trimZeros_all_digit (l : List Char) (hl : l.all Char.isDigit = true) :
    (trimZeros l).all Char.isDigit = true := by
  unfold trimZeros
  by_cases h : ((l.reverse.dropWhile fun c => c = '0').reverse).isEmpty
  · simp [h]
  · rw [if_neg h, List.all_eq_true] at *
    intro c hc
    apply hl
    rw [List.mem_reverse] at hc
    exact List.mem_reverse.mp ((List.dropWhile_sublist _).mem hc)

theorem isJsonNumberL_digits (ds fs : List Char)
    (hd : ds.all Char.isDigit = true) (hdne : ds ≠ [])
    (hf : fs.all Char.isDigit = true) (hfne : fs ≠ []) :
    isJsonNumberL (ds ++ '.' :: fs) = true := by
  unfold isJsonNumberL
  have hstrip : stripNeg (ds ++ '.' :: fs) = ds ++ '.' :: fs := by
    unfold stripNeg
    cases ds with
    | nil => exact absurd rfl hdne
    | cons c r =>
      have hcd : c.isDigit = true := List.all_eq_true.mp hd c (by simp)
      have hc : c ≠ '-' := by
        intro e
        rw [e] at hcd
        exact absurd hcd (by decide)
      simp [hc]
  rw [hstrip,
    splitOnChar_append '.' ds fs (all_digit_not_mem ds '.' (by decide) hd),
    splitOnChar_of_not_mem '.' fs (all_digit_not_mem fs '.' (by decide) hf)]
  simp [hd, hf, List.isEmpty_iff, hdne, hfne]

theorem isJsonNumberL_neg_digits (ds fs : List Char)
    (hd : ds.all Char.isDigit = true) (hdne : ds ≠ [])
    (hf : fs.all Char.isDigit = true) (hfne : fs ≠ []) :
    isJsonNumberL ('-' :: (ds ++ '.' :: fs)) = true := by
  unfold isJsonNumberL
  have hstrip : stripNeg ('-' :: (ds ++ '.' :: fs)) = ds ++ '.' :: fs := by
    simp [stripNeg]
  rw [hstrip,
    splitOnChar_append '.' ds fs (all_digit_not_mem ds '.' (by decide) hd),
    splitOnChar_of_not_mem '.' fs (all_digit_not_mem fs '.' (by decide) hf)]
  simp [hd, hf, List.isEmpty_iff, hdne, hfne]

theorem isJsonNumber_renderTemp (m : Int) : isJsonNumber (renderTemp m) = true := by
  have hip := natDigits_all_digit (m.natAbs / 1000)
  have hipne := natDigits_ne_nil (m.natAbs / 1000)
  have h1 : m.natAbs % 1000 / 100 < 10 := by omega
  have h2 : m.natAbs % 1000 / 10 % 10 < 10 := by omega
  have h3 : m.natAbs % 1000 % 10 < 10 := by omega
  have htz : (trimZeros [digitChar (m.natAbs % 1000 / 100),
      digitChar (m.natAbs % 1000 / 10 % 10),
      digitChar (m.natAbs % 1000 % 10)]).all Char.isDigit = true := by
    apply trimZeros_all_digit
    simp [digitChar_isDigit _ h1, digitChar_isDigit _ h2, digitChar_isDigit _ h3]
  have htzne := trimZeros_ne_nil [digitChar (m.natAbs % 1000 / 100),
    digitChar (m.natAbs % 1000 / 10 % 10), digitChar (m.natAbs % 1000 % 10)]
  show isJsonNumberL (renderTempL m) = true
  unfold renderTempL
  by_cases hm : m < 0
  · rw [if_pos hm]
    simp only [List.singleton_append]
    exact isJsonNumberL_neg_digits _ _ hip hipne htz htzne
  · rw [if_neg hm]
    simp only [List.nil_append]
    exact isJsonNumberL_digits _ _ hip hipne htz htzne

/-- C10: for every raw device-file access, the driver returns the fixed
single-field JSON serialization of its reading: on every failure branch (the
reading is the `NAN` sentinel, which serializes as `null`) the string is
exactly `\x7b"temperature":null\x7d`, and on the success branch the value is a
well-formed JSON number, so the output is always valid single-field JSON and
every `serde_json::to_string(..).unwrap()` in the driver succeeds — the
embedded driver is a total function with no panic branch. -/
theorem C10_output_always_single_field_json (raw : Option String) :
    read_to_string raw = renderReading (readReading raw) ∧
    (readReading raw = Reading.sentinel →
      read_to_string raw = "\x7b\"temperature\":null\x7d") ∧
    ∀ m, readReading raw = Reading.value m →
      read_to_string raw = "\x7b\"temperature\":" ++ renderTemp m ++ "\x7d" ∧
      isJsonNumber (renderTemp m) = true := by
  refine ⟨rfl, fun h => ?_, fun m h => ⟨?_, isJsonNumber_renderTemp m⟩⟩
  · unfold read_to_string
    rw [h]
    rfl
  · unfold read_to_string
    rw [h]
    rfl

/-- Witness for C10 at a failed read and at a concrete successful read. -/
theorem C10_output_always_single_field_json_witness :
    read_to_string none = "\x7b\"temperature\":null\x7d" ∧
    read_to_string (some "a YES\nt=23000") =
      "\x7b\"temperature\":" ++ renderTemp 23000 ++ "\x7d" ∧
    isJsonNumber (renderTemp 23000) = true :=
  ⟨(C10_output_always_single_field_json none).2.1 rfl,
    ((C10_output_always_single_field_json (some "a YES\nt=23000")).2.2 23000 (by decide)).1,
    ((C10_output_always_single_field_json (some "a YES\nt=23000")).2.2 23000 (by decide)).2⟩

theorem sensors_foldl (entries : List (Except String String)) (acc : List String) :
    entries.foldl sensorStep acc =
      acc ++ (entries.filterMap okEntry).filter (fun n => n.startsWith "28-") := by
  induction entries generalizing acc with
  | nil => simp
  | cons dev rest ih =>
    cases dev with
    | error e => simp [sensorStep, okEntry, ih]
    | ok id =>
      by_cases hp : id.startsWith "28-" <;>
        simp [sensorStep, okEntry, hp, ih, List.filter_cons]

/-- C6: for every listing of the device directory, the registry built at
startup contains exactly one sensor per directory entry whose name begins
with the family prefix `"28-"`, each sensor's identifier equals that
directory-entry name exactly, entries not beginning with the prefix are
excluded, and the registry size equals the count of matching entries. -/
theorem C6_registry_filters_family (names : List String) :
    get_sensors (Except.ok (names.map Except.ok)) =
      Except.ok (names.filter (fun n => n.startsWith "28-")) ∧
    (names.filter (fun n => n.startsWith "28-")).length =
      names.countP (fun n => n.startsWith "28-") := by
  constructor
  · have h : List.filterMap (okEntry ∘ Except.ok) names = names := by
      induction names with
      | nil => rfl
      | cons a l ih => simpa [okEntry] using ih
    simp [get_sensors, sensors_foldl, List.filterMap_map, h]
  · exact (List.countP_eq_length_filter _ _).symm

/-- C7: if reading the device directory itself fails, `get_sensors` returns
the startup error (which `main` propagates with `?`); an unreadable entry
inside a successful listing is skipped and registry construction still
succeeds, keeping exactly the readable entries with the family prefix. -/
theorem C7_directory_error_fatal_entry_error_skipped :
    (∀ e : String, get_sensors (Except.error e) = Except.error e) ∧
    (∀ entries : List (Except String String),
      get_sensors (Except.ok entries) =
        Except.ok ((entries.filterMap okEntry).filter (fun n => n.startsWith "28-"))) := by
  refine ⟨fun e => rfl, fun entries => ?_⟩
  simp [get_sensors, sensors_foldl]

/-- C3: every steady-state cycle ends by proceeding to the next cycle —
whatever the sensor reads, the reconnect result and the publish result were —
the trace of `n + 1` cycles extends the trace of `n` cycles by exactly one
cycle, and every cycle starts with the same fixed delay; the loop has no
normal exit. -/
theorem C3_recoverable_errors_never_fatal (wait : ℚ) (sensors : List String)
    (envs : Nat → SensorEnv) (bs : Nat → BrokerCycle) (n : Nat) :
    cycleOutcome (bs n) = ControlFlow.nextCycle ∧
    runCycles wait sensors envs bs (n + 1) =
      runCycles wait sensors envs bs n ++ cycleEvents wait sensors (envs n) (bs n) ∧
    (cycleEvents wait sensors (envs n) (bs n)).head? = some (Event.sleep wait) := by
  refine ⟨?_, rfl, ?_⟩
  · cases hb : (bs n).isConnected <;> cases hr : (bs n).reconnectOk <;>
      simp [cycleOutcome, hb, hr]
  · cases hb : (bs n).isConnected <;> cases hr : (bs n).reconnectOk <;>
      simp [cycleEvents, hb, hr]

/-- C2: in a cycle whose connection-state query reports disconnected, exactly
one reconnect attempt happens, it happens before any publish attempt, and if
the reconnect fails the cycle ends immediately with no publish attempt at
all. -/
theorem C2_reconnect_before_publish (wait : ℚ) (sensors : List String)
    (env : SensorEnv) (b : BrokerCycle) (hdisc : b.isConnected = false) :
    ∃ pre post,
      cycleEvents wait sensors env b = pre ++ Event.reconnect :: post ∧
      (∀ p, Event.publish p ∉ pre) ∧
      Event.reconnect ∉ pre ∧
      Event.reconnect ∉ post ∧
      (b.reconnectOk = false → post = []) := by
  cases hr : b.reconnectOk
  · refine ⟨Event.sleep wait :: sensors.map Event.readSensor, [], ?_, ?_, ?_, ?_, fun _ => rfl⟩
    · simp [cycleEvents, hdisc, hr]
    · intro p
      simp [List.mem_map]
    · simp [List.mem_map]
    · simp
  · refine ⟨Event.sleep wait :: sensors.map Event.readSensor,
      [Event.publish (serializeSnapshot (buildSnapshot sensors env))], ?_, ?_, ?_, ?_, ?_⟩
    · simp [cycleEvents, hdisc, hr]
    · intro p
      simp [List.mem_map]
    · simp [List.mem_map]
    · simp
    · simp [hr]

/-- Witness for C2 at a concrete disconnected cycle whose reconnect fails. -/
theorem C2_reconnect_before_publish_witness :
    ∃ pre post,
      cycleEvents 10 ["28-0000001"] (fun _ => none)
          ⟨false, false, true⟩ = pre ++ Event.reconnect :: post ∧
      (∀ p, Event.publish p ∉ pre) ∧
      Event.reconnect ∉ pre ∧
      Event.reconnect ∉ post ∧
      ((⟨false, false, true⟩ : BrokerCycle).reconnectOk = false → post = []) :=
  C2_reconnect_before_publish 10 ["28-0000001"] (fun _ => none)
    ⟨false, false, true⟩ rfl

/-- C1: every malformed status-file content — the file cannot be read, the
decoded content is empty, it has fewer than two lines, the first line does
not end with the `"YES"` validity marker, or the text after the last `'='` on
the second line does not parse as a signed 32-bit integer — makes the
driver's read return the sentinel reading string; being a total Lean
function, the embedded driver also cannot raise on any of these inputs. -/
theorem C1_malformed_to_sentinel (raw : Option String)
    (h : raw = none ∨ ∃ c, raw = some c ∧
      (c = "" ∨ (rustLines c).length < 2 ∨
        ∃ l1 l2 rest, rustLines c = l1 :: l2 :: rest ∧
          (['Y', 'E', 'S'].isSuffixOf l1 = false ∨ parseI32 (afterLastEq l2) = none))) :
    read_to_string raw = "\x7b\"temperature\":null\x7d" := by
  rcases h with rfl | ⟨c, rfl, hc⟩
  · rfl
  · show renderReading (parseContent c) = _
    rcases hc with rfl | hlen | ⟨l1, l2, rest, hl, hbad⟩
    · rfl
    · unfold parseContent
      by_cases h0 : c = ""
      · subst h0
        rfl
      · rw [if_neg h0]
        rcases hL : rustLines c with _ | ⟨a, _ | ⟨b, t⟩⟩
        · rfl
        · rfl
        · rw [hL] at hlen
          simp only [List.length_cons] at hlen
          omega
    · by_cases h0 : c = ""
      · subst h0
        rw [show rustLines "" = [] from rfl] at hl
        cases hl
      · unfold parseContent
        rw [if_neg h0, hl]
        rcases hbad with hyes | hparse
        · simp [hyes, renderReading]
        · by_cases hy : ['Y', 'E', 'S'].isSuffixOf l1 <;>
            simp [hy, hparse, renderReading]

/-- Witness for C1 at a concrete single-line (hence malformed) content. -/
theorem C1_malformed_to_sentinel_witness :
    read_to_string (some "garbage") = "\x7b\"temperature\":null\x7d" :=
  C1_malformed_to_sentinel (some "garbage")
    (Or.inr ⟨"garbage", rfl, Or.inr (Or.inl (by decide))⟩)

/-- C4: a well-formed status file whose first line ends with the validity
marker and whose second line carries the trailing value `25000` yields the
reading `25000` millidegrees, i.e. the temperature `25000 / 1000 = 25.0`
(exact also in `f32`), serialized as `\x7b"temperature":25.0\x7d`. -/
theorem C4_wellformed_25000 (c : String) (l1 l2 : List Char)
    (rest : List (List Char)) (hl : rustLines c = l1 :: l2 :: rest)
    (hyes : ['Y', 'E', 'S'].isSuffixOf l1 = true)
    (hval : parseI32 (afterLastEq l2) = some 25000) :
    readReading (some c) = Reading.value 25000 ∧
    temperature (readReading (some c)) = some 25 ∧
    read_to_string (some c) = "\x7b\"temperature\":25.0\x7d" := by
  have h0 : c ≠ "" := by
    intro e
    subst e
    rw [show rustLines "" = [] from rfl] at hl
    cases hl
  have hr : readReading (some c) = Reading.value 25000 := by
    show parseContent c = _
    unfold parseContent
    rw [if_neg h0, hl]
    simp [hyes, hval]
  refine ⟨hr, ?_, ?_⟩
  · rw [hr]
    show some ((25000 : ℚ) / 1000) = some 25
    norm_num
  · show renderReading (readReading (some c)) = _
    rw [hr]
    decide

/-- Witness for C4 at a concrete well-formed status-file content. -/
theorem C4_wellformed_25000_witness :
    readReading (some "a YES\nt=25000") = Reading.value 25000 ∧
    temperature (readReading (some "a YES\nt=25000")) = some 25 ∧
    read_to_string (some "a YES\nt=25000") = "\x7b\"temperature\":25.0\x7d" :=
  C4_wellformed_25000 "a YES\nt=25000" ['a', ' ', 'Y', 'E', 'S']
    ['t', '=', '2', '5', '0', '0', '0'] [] (by decide) (by decide) (by decide)

/-- C5: end to end, for a registry with the single sensor `28-0000001` whose
status file reads `"a1 01 4b 46 7f ff 0c 10 56 : crc=56 YES\n23000"`, the
published payload is the double-encoded JSON object
`\x7b"28-0000001":"\x7b\"temperature\":23.0\x7d"\x7d`: the outer object's value is the
JSON-serialized single-field reading string, quoted and escaped as a string
literal, not a nested object. -/
theorem C5_end_to_end_payload :
    serializeSnapshot (buildSnapshot ["28-0000001"]
      (fun _ => some "a1 01 4b 46 7f ff 0c 10 56 : crc=56 YES\n23000")) =
    "\x7b\"28-0000001\":\"\x7b\\\"temperature\\\":23.0\x7d\"\x7d" := by
  decide

theorem insertHM_keys (m : List (String × String)) (k : String) (v : String) :
    (insertHM m k v).map Prod.fst =
      if k ∈ m.map Prod.fst then m.map Prod.fst else m.map Prod.fst ++ [k] := by
  unfold insertHM
  by_cases hmem : k ∈ m.map Prod.fst
  · have hany : m.any (fun p => p.1 = k) = true := by
      rcases List.mem_map.mp hmem with ⟨p, hp, hk⟩
      exact List.any_eq_true.mpr ⟨p, hp, by simp [hk]⟩
    rw [if_pos hany, if_pos hmem, List.map_map]
    apply List.map_congr_left
    intro p hp
    by_cases hpk : p.1 = k <;> simp [hpk]
  · have hany : m.any (fun p => p.1 = k) = false := by
      rw [List.any_eq_false]
      intro p hp
      simp only [decide_eq_true_eq]
      intro hk
      exact hmem (List.mem_map.mpr ⟨p, hp, hk⟩)
    rw [hany, if_neg hmem]
    simp

theorem buildSnapshot_keys_aux (sensors : List String) (env : SensorEnv)
    (acc : List (String × String)) (hacc : (acc.map Prod.fst).Nodup) :
    ((sensors.foldl (fun a id => insertHM a id (read_to_string (env id))) acc).map
        Prod.fst).Nodup ∧
    ∀ k, k ∈ (sensors.foldl (fun a id => insertHM a id (read_to_string (env id)))
        acc).map Prod.fst ↔ k ∈ acc.map Prod.fst ∨ k ∈ sensors := by
  induction sensors generalizing acc with
  | nil => simp [hacc]
  | cons id rest ih =>
    simp only [List.foldl_cons]
    have hk := insertHM_keys acc id (read_to_string (env id))
    by_cases hmem : id ∈ acc.map Prod.fst
    · rw [if_pos hmem] at hk
      obtain ⟨n1, n2⟩ := ih (insertHM acc id (read_to_string (env id))) (by rw [hk]; exact hacc)
      refine ⟨n1, fun k => ?_⟩
      rw [n2 k, hk]
      constructor
      · rintro (h | h) <;> simp [h]
      · rintro (h | h)
        · exact Or.inl h
        · rcases List.mem_cons.mp h with rfl | h
          · exact Or.inl hmem
          · exact Or.inr h
    · rw [if_neg hmem] at hk
      have hacc' : ((insertHM acc id (read_to_string (env id))).map Prod.fst).Nodup := by
        rw [hk]
        simp [List.nodup_append, hacc, hmem]
      obtain ⟨n1, n2⟩ := ih (insertHM acc id (read_to_string (env id))) hacc'
      refine ⟨n1, fun k => ?_⟩
      rw [n2 k, hk]
      simp only [List.mem_append, List.mem_singleton, List.mem_cons]
      tauto

/-- C8: in every cycle the snapshot is created fresh — it is a function of the
registry and of that cycle's device reads alone, so two runs agreeing on cycle
`n`'s reads produce the same snapshot regardless of any prior cycle — and its
key list has no duplicates and contains exactly the registry's identifiers. -/
theorem C8_snapshot_keys_fresh (sensors : List String)
    (envs envs' : Nat → SensorEnv) (n : Nat) (hsame : envs n = envs' n) :
    ((snapshotAt sensors envs n).map Prod.fst).Nodup ∧
    (∀ k, k ∈ (snapshotAt sensors envs n).map Prod.fst ↔ k ∈ sensors) ∧
    snapshotAt sensors envs n = snapshotAt sensors envs' n := by
  obtain ⟨h1, h2⟩ := buildSnapshot_keys_aux sensors (envs n) [] (by simp)
  refine ⟨h1, fun k => ?_, ?_⟩
  · simpa using h2 k
  · unfold snapshotAt
    rw [hsame]

/-- Witness for C8 at a concrete registry and a concrete pair of runs that
agree on cycle 0's reads. -/
theorem C8_snapshot_keys_fresh_witness :
    ((snapshotAt ["28-0000001", "28-0000002"] (fun _ _ => none) 0).map Prod.fst).Nodup ∧
    (∀ k, k ∈ (snapshotAt ["28-0000001", "28-0000002"] (fun _ _ => none) 0).map Prod.fst ↔
      k ∈ ["28-0000001", "28-0000002"]) ∧
    snapshotAt ["28-0000001", "28-0000002"] (fun _ _ => none) 0 =
      snapshotAt ["28-0000001", "28-0000002"] (fun _ _ => none) 0 :=
  C8_snapshot_keys_fresh ["28-0000001", "28-0000002"] (fun _ _ => none)
    (fun _ _ => none) 0 rfl

/-- C9: the claim (and the spec) say a missing polling-interval variable is
not a fatal missing-configuration error and startup proceeds with the default
`10.0`; the code's `parse` helper does the opposite — the `Err` branch of
`env::var` (the variable is absent) panics with `"Error unpacking"`, and the
default is returned only when the variable is present but unparsable. This
theorem evaluates the embedded helper on both inputs, exhibiting the bug. -/
theorem C9_parse_absent_panics (S : Type) (from_str : String → Option S) (d : S) :
    parse S from_str none d = ParseOutcome.panicked ∧
    ∀ s, from_str s = none → parse S from_str (some s) d = ParseOutcome.ok d := by
  refine ⟨rfl, fun s hs => ?_⟩
  simp [parse, hs]

/-- Witness for C9: with no value supplied the helper panics instead of
yielding the default `10`; with an unparsable value it yields the default. -/
theorem C9_parse_absent_panics_witness :
    parse ℚ (fun _ => none) none 10 = ParseOutcome.panicked ∧
    parse ℚ (fun _ => none) (some "ten") 10 = ParseOutcome.ok 10 :=
  ⟨(C9_parse_absent_panics ℚ (fun _ => none) 10).1,
    (C9_parse_absent_panics ℚ (fun _ => none) 10).2 "ten" rfl⟩

end PiSensor
